import Mathlib

/-!
Shallow embedding of the dutex lock registry (src/main.go).

The Go program keeps a `Dutex` struct with a map `locked` from resource
names to `Resource{version uint64; expiration time.Time}` and a global
`version uint64` counter, guarded by a mutex.  The mutex serializes every
`Lock`/`Unlock` call, so the registry is modelled as a purely functional
state machine: each RPC handler becomes a function from the current state
(plus the current time, an `Int`, standing for `time.Now()`) to a result
and the next state.  The two reads of `time.Now()` inside one `Lock` call
happen back to back inside the critical section and are modelled as a
single instant `now`.  Go's `uint64` arithmetic wraps, so the counter is a
`Nat` reduced modulo `2 ^ 64` at the one place the code does arithmetic on
it (`dutex.version++`).
-/

/-- Modulus of Go's `uint64` type: incrementing `dutex.version` wraps at this value. -/
def uint64Size : Nat := 2 ^ 64

/-- The `Resource` struct of main.go: one currently held lock. -/
structure Resource where
  version : Nat
  expiration : Int
deriving DecidableEq, Repr

/-- The `Dutex` struct of main.go (the mutex is elided: calls are serialized).
The Go map is modelled by its lookup function. -/
structure Dutex where
  locked : String → Option Resource
  version : Nat

/-- `newDutex()`: empty map, zero counter. -/
def newDutex : Dutex := { locked := fun _ => none, version := 0 }

/-- The error values built by the `fmt.Errorf` calls in `Lock` and `Unlock`.
Each constructor carries exactly the data the corresponding format string
interpolates; in particular `versionMismatch` has no resource field because
the Go message "expected version %d, got version %d" does not include one. -/
inductive DutexError where
  | alreadyLocked (resource : String)
  | alreadyUnlocked (resource : String)
  | versionMismatch (expected got : Nat)
deriving DecidableEq, Repr

/-- The rendered message of each error, following the exact format strings of
the `fmt.Errorf` calls in main.go. -/
def DutexError.message : DutexError → String
  | .alreadyLocked r => r ++ " is already locked."
  | .alreadyUnlocked r => r ++ " is already unlocked"
  | .versionMismatch e g => "expected version " ++ toString e ++ ", got version " ++ toString g

/-- Outcome of `Dutex.Lock`: either the error, or the version written through
the `*uint64` out-parameter. -/
inductive LockResult where
  | ok (version : Nat)
  | err (e : DutexError)
deriving DecidableEq, Repr

/-- Outcome of `Dutex.Unlock`: either the error or success (empty reply). -/
inductive UnlockResult where
  | ok
  | err (e : DutexError)
deriving DecidableEq, Repr

/-- The guard `ok && time.Now().Before(previous.expiration)` of `Dutex.Lock`:
a lookup result is live at `now` when it is present and `now` is strictly
before its expiration. -/
def liveAt (previous : Option Resource) (now : Int) : Bool :=
  match previous with
  | some p => decide (now < p.expiration)
  | none => false

/-- The write path of `Dutex.Lock` (the code after the early return):
`expiration := time.Now().Add(arg.Lifetime)`, `dutex.version++`,
`dutex.locked[arg.Resource] = Resource{dutex.version, expiration}`,
`*version = dutex.version`. -/
def Dutex.lockStore (dutex : Dutex) (resource : String) (lifetime now : Int) :
    LockResult × Dutex :=
  (.ok ((dutex.version + 1) % uint64Size),
   { locked := fun r =>
       if r = resource then
         some { version := (dutex.version + 1) % uint64Size, expiration := now + lifetime }
       else dutex.locked r,
     version := (dutex.version + 1) % uint64Size })

/-- `Dutex.Lock` from main.go: fail if the existing entry is live, otherwise
increment the counter and store/overwrite the entry. -/
def Dutex.lock (dutex : Dutex) (resource : String) (lifetime now : Int) :
    LockResult × Dutex :=
  if liveAt (dutex.locked resource) now then
    (.err (.alreadyLocked resource), dutex)
  else
    dutex.lockStore resource lifetime now

/-- `Dutex.Unlock` from main.go: missing entry fails, version mismatch fails,
otherwise `delete(dutex.locked, arg.Resource)`. -/
def Dutex.unlock (dutex : Dutex) (resource : String) (version : Nat) :
    UnlockResult × Dutex :=
  match dutex.locked resource with
  | none => (.err (.alreadyUnlocked resource), dutex)
  | some previous =>
    if version ≠ previous.version then
      (.err (.versionMismatch previous.version version), dutex)
    else
      (.ok, { dutex with locked := fun r => if r = resource then none else dutex.locked r })

/-- One registry call, as issued over RPC: the arguments of `Dutex.Lock`
(with the instant the server handles it) or of `Dutex.Unlock`. -/
inductive Op where
  | lock (resource : String) (lifetime : Int) (now : Int)
  | unlock (resource : String) (version : Nat)

/-- Observable outcome of one registry call. -/
inductive Out where
  | lockOk (version : Nat)
  | lockErr (e : DutexError)
  | unlockOk
  | unlockErr (e : DutexError)
deriving DecidableEq, Repr

/-- Dispatch one call to the corresponding handler. -/
def Dutex.step (dutex : Dutex) : Op → Out × Dutex
  | .lock r l n =>
    match dutex.lock r l n with
    | (.ok v, d) => (.lockOk v, d)
    | (.err e, d) => (.lockErr e, d)
  | .unlock r v =>
    match dutex.unlock r v with
    | (.ok, d) => (.unlockOk, d)
    | (.err e, d) => (.unlockErr e, d)

/-- Run a serialized sequence of calls (the mutex admits exactly these
interleavings), returning the final state and the outcomes in order. -/
def Dutex.run (dutex : Dutex) : List Op → Dutex × List Out
  | [] => (dutex, [])
  | op :: rest =>
    ((((dutex.step op).2.run rest).1),
     (dutex.step op).1 :: ((dutex.step op).2.run rest).2)

/-- Whether an outcome is a successful lock acquisition. -/
def Out.isLockOk : Out → Bool
  | .lockOk _ => true
  | _ => false

/-- Number of successful lock acquisitions in a list of outcomes. -/
def succCount (outs : List Out) : Nat := outs.countP Out.isLockOk

/-- The versions issued by the successful lock acquisitions, in order. -/
def issued (outs : List Out) : List Nat :=
  outs.filterMap fun o =>
    match o with
    | .lockOk v => some v
    | _ => none

/-- A concrete busy registry: resource "r" held with version 1 until time 10. -/
def dutexBusy : Dutex :=
  { locked := fun r => if r = "r" then some { version := 1, expiration := 10 } else none,
    version := 1 }

/-- A concrete busy registry keyed by "apple" (a name that does not occur in
the version-mismatch message text). -/
def dutexApple : Dutex :=
  { locked := fun r => if r = "apple" then some { version := 1, expiration := 10 } else none,
    version := 1 }

example : (newDutex.lock "r" 5 0).1 = .ok 1 := by decide
example : (dutexBusy.lock "r" 5 0).1 = .err (.alreadyLocked "r") := by decide
example : (dutexBusy.lock "r" 5 10).1 = .ok 2 := by decide
example : (dutexBusy.unlock "r" 2).1 = .err (.versionMismatch 1 2) := by decide
example : (dutexBusy.unlock "q" 1).1 = .err (.alreadyUnlocked "q") := by decide
example : (dutexBusy.unlock "r" 1).1 = .ok := by decide
example : ((dutexBusy.unlock "r" 1).2.locked "r") = none := by decide
example :
    (newDutex.run [Op.lock "a" 5 0, Op.lock "b" 5 0]).2 = [Out.lockOk 1, Out.lockOk 2] := by
  decide
example : ¬ ("apple".data <:+: (DutexError.versionMismatch 1 2).message.data) := by decide

/-- Inversion of a successful `Dutex.lock` call: it returned the incremented
counter, stored it both as the new counter and in the entry for the resource
with expiration `now + lifetime`, and touched no other resource. -/
theorem lock_ok_inversion (d d1 : Dutex) (R : String) (L now : Int) (V : Nat)
    (h : d.lock R L now = (.ok V, d1)) :
    V = (d.version + 1) % uint64Size ∧ d1.version = V ∧
    d1.locked R = some { version := V, expiration := now + L } ∧
    ∀ r, r ≠ R → d1.locked r = d.locked r := by
  unfold Dutex.lock at h
  cases hl : liveAt (d.locked R) now with
  | true => simp [hl] at h
  | false =>
    simp only [hl, Bool.false_eq_true, if_false] at h
    unfold Dutex.lockStore at h
    rw [Prod.mk.injEq] at h
    obtain ⟨h1, h2⟩ := h
    injection h1 with hV
    subst h2
    refine ⟨hV.symm, hV, ?_, ?_⟩
    · simp [hV]
    · intro r hr
      simp [hr]

/-- The state written by a successful lock, used to spell out witnesses. -/
def dutexR1 : Dutex := (newDutex.lock "r" 5 0).2

/-- The state written by a lock with a negative lifetime. -/
def dutexRNeg : Dutex := (newDutex.lock "r" (-3) 0).2

/-- C1: a `Lock(resourceName, lifetime)` call fails with `AlreadyLocked`
naming the resource and changes nothing when an entry exists whose
`expiresAt` is strictly after the current time; otherwise (no entry, or
expired entry) it increments the counter, stores/overwrites the entry with
the new version and `expiresAt = now + lifetime`, and returns the new
version. -/
theorem C1_lock_spec (d : Dutex) (resource : String) (lifetime now : Int) :
    (∀ p, d.locked resource = some p → now < p.expiration →
        d.lock resource lifetime now = (.err (.alreadyLocked resource), d)) ∧
    ((d.locked resource = none ∨ ∀ p, d.locked resource = some p → p.expiration ≤ now) →
        d.lock resource lifetime now =
          (.ok ((d.version + 1) % uint64Size),
           { locked := fun r =>
               if r = resource then
                 some { version := (d.version + 1) % uint64Size,
                        expiration := now + lifetime }
               else d.locked r,
             version := (d.version + 1) % uint64Size })) := by
  constructor
  · intro p hp hlt
    have hl : liveAt (d.locked resource) now = true := by
      simp [liveAt, hp, hlt]
    simp [Dutex.lock, hl]
  · intro hcase
    have hl : liveAt (d.locked resource) now = false := by
      cases heq : d.locked resource with
      | none => simp [liveAt]
      | some p =>
        rcases hcase with hnone | hexp
        · rw [heq] at hnone; exact absurd hnone (by simp)
        · have := hexp p heq
          simp [liveAt]
          omega
    simp [Dutex.lock, hl, Dutex.lockStore]

/-- Witness for C1: both branches at concrete states. -/
theorem C1_witness :
    dutexBusy.lock "r" 5 0 = (.err (.alreadyLocked "r"), dutexBusy) ∧
    newDutex.lock "r" 5 0 =
      (.ok ((newDutex.version + 1) % uint64Size),
       { locked := fun r =>
           if r = "r" then
             some { version := (newDutex.version + 1) % uint64Size, expiration := 0 + 5 }
           else newDutex.locked r,
         version := (newDutex.version + 1) % uint64Size }) :=
  ⟨(C1_lock_spec dutexBusy "r" 5 0).1 { version := 1, expiration := 10 } (by decide) (by decide),
   (C1_lock_spec newDutex "r" 5 0).2 (Or.inl rfl)⟩

/-- C3 (amended): `Unlock(resourceName, version)` fails with
`AlreadyUnlocked` naming the resource iff no entry exists; given an entry,
it fails with `VersionMismatch` reporting the expected (stored) version and
the supplied version — the error does not carry the resource name — iff the
supplied version differs from the stored one; and it removes the entry and
succeeds when the versions match. -/
theorem C3_unlock_spec (d : Dutex) (resource : String) (version : Nat) :
    (d.unlock resource version = (.err (.alreadyUnlocked resource), d) ↔
      d.locked resource = none) ∧
    (∀ p, d.locked resource = some p →
      (version ≠ p.version ↔
        d.unlock resource version = (.err (.versionMismatch p.version version), d))) ∧
    (∀ p, d.locked resource = some p → version = p.version →
      d.unlock resource version =
        (.ok, { d with locked := fun r => if r = resource then none else d.locked r })) := by
  refine ⟨?_, ?_, ?_⟩
  · cases heq : d.locked resource with
    | none => simp [Dutex.unlock, heq]
    | some p =>
      by_cases hv : version = p.version
      · simp [Dutex.unlock, heq, hv]
      · simp [Dutex.unlock, heq, hv]
  · intro p hp
    by_cases hv : version = p.version
    · simp [Dutex.unlock, hp, hv]
    · simp [Dutex.unlock, hp, hv]
  · intro p hp hv
    simp [Dutex.unlock, hp, hv]

/-- Witness for C3's amended theorem: a mismatching unlock at a concrete
state fails with the stored and supplied versions. -/
theorem C3_witness :
    dutexApple.unlock "apple" 2 = (.err (.versionMismatch 1 2), dutexApple) :=
  ((C3_unlock_spec dutexApple "apple" 2).2.1 { version := 1, expiration := 10 }
    (by decide)).mp (by decide)

/-- C3 (counterexample to the claim as stated): the version-mismatch failure
does not report the resource.  On a concrete registry holding "apple" at
version 1, unlocking with version 2 yields the very same error value as the
analogous call on resource "r", and the rendered message does not contain
the resource name at all. -/
theorem C3_counterexample :
    (dutexApple.unlock "apple" 2).1 = .err (.versionMismatch 1 2) ∧
    (dutexApple.unlock "apple" 2).1 = (dutexBusy.unlock "r" 2).1 ∧
    ¬ ("apple".data <:+: (DutexError.versionMismatch 1 2).message.data) :=
  ⟨by decide, by decide, by decide⟩

/-- C4: `Unlock` never checks expiration — on an entry whose `expiresAt`
already lies in the past, unlocking with the matching stored version still
succeeds and removes the entry.  The time hypothesis is not consumed by the
proof because `Dutex.unlock` takes no clock input at all. -/
theorem C4_unlock_ignores_expiration (d : Dutex) (resource : String) (p : Resource) (now : Int)
    (hp : d.locked resource = some p) (hexp : p.expiration < now) :
    d.unlock resource p.version =
      (.ok, { d with locked := fun r => if r = resource then none else d.locked r }) := by
  simp [Dutex.unlock, hp]

/-- Witness for C4: the entry for "apple" expired at 10, yet at time 20 the
matching unlock succeeds and removes it. -/
theorem C4_witness :
    dutexApple.unlock "apple" 1 =
      (.ok, { dutexApple with
               locked := fun r => if r = "apple" then none else dutexApple.locked r }) :=
  C4_unlock_ignores_expiration dutexApple "apple" { version := 1, expiration := 10 } 20
    (by decide) (by decide)

/-- C5: after a successful `Lock(R, L)` returning version V, an
`Unlock(R, V + 1)` fails with a version mismatch reporting expected V and
supplied V + 1 and leaves the state untouched, and `Unlock(R, V)` still
succeeds and removes the entry. -/
theorem C5_wrong_token (d d1 : Dutex) (R : String) (L now : Int) (V : Nat)
    (h : d.lock R L now = (.ok V, d1)) :
    d1.unlock R (V + 1) = (.err (.versionMismatch V (V + 1)), d1) ∧
    d1.unlock R V =
      (.ok, { d1 with locked := fun r => if r = R then none else d1.locked r }) := by
  obtain ⟨hV, hver, hR, hframe⟩ := lock_ok_inversion d d1 R L now V h
  constructor
  · simp [Dutex.unlock, hR]
  · simp [Dutex.unlock, hR]

/-- Witness for C5 at the concrete state reached by locking "r". -/
theorem C5_witness :
    dutexR1.unlock "r" 2 = (.err (.versionMismatch 1 2), dutexR1) ∧
    dutexR1.unlock "r" 1 =
      (.ok, { dutexR1 with locked := fun r => if r = "r" then none else dutexR1.locked r }) :=
  C5_wrong_token newDutex dutexR1 "r" 5 0 1 rfl

/-- C6: after a successful `Lock(R, L)` with `L ≤ 0` (so the stored
expiration `now + L` is not in the future), any immediately subsequent
`Lock(R, L2)` — at any instant not before the first — succeeds. -/
theorem C6_expired_relock (d d1 : Dutex) (R : String) (L L2 now now2 : Int) (V : Nat)
    (hL : L ≤ 0) (h : d.lock R L now = (.ok V, d1)) (hnow : now ≤ now2) :
    (d1.lock R L2 now2).1 = .ok ((d1.version + 1) % uint64Size) := by
  obtain ⟨hV, hver, hR, hframe⟩ := lock_ok_inversion d d1 R L now V h
  have hlive : liveAt (d1.locked R) now2 = false := by
    rw [hR]
    simp only [liveAt, decide_eq_false_iff_not, not_lt]
    omega
  simp [Dutex.lock, hlive, Dutex.lockStore]

/-- Witness for C6: lock "r" with lifetime -3 at time 0, then lock it again
at time 0 and succeed. -/
theorem C6_witness :
    (dutexRNeg.lock "r" 5 0).1 = .ok ((dutexRNeg.version + 1) % uint64Size) :=
  C6_expired_relock newDutex dutexRNeg "r" (-3) 5 0 0 1 (by decide) rfl (by decide)

/-- C7: round trip — a successful `Lock(R, L)` returning V, followed by
`Unlock(R, V)`, succeeds and removes the entry for R, after which a
`Lock(R, L2)` at any later (or even earlier) instant succeeds immediately. -/
theorem C7_round_trip (d d1 : Dutex) (R : String) (L L2 now now2 : Int) (V : Nat)
    (h : d.lock R L now = (.ok V, d1)) :
    d1.unlock R V =
      (.ok, { d1 with locked := fun r => if r = R then none else d1.locked r }) ∧
    ({ d1 with locked := fun r => if r = R then none else d1.locked r } : Dutex).locked R
      = none ∧
    (({ d1 with locked := fun r => if r = R then none else d1.locked r } : Dutex).lock
        R L2 now2).1
      = .ok ((d1.version + 1) % uint64Size) := by
  obtain ⟨hV, hver, hR, hframe⟩ := lock_ok_inversion d d1 R L now V h
  refine ⟨?_, ?_, ?_⟩
  · simp [Dutex.unlock, hR]
  · simp
  · simp [Dutex.lock, liveAt, Dutex.lockStore]

/-- Witness for C7 at the concrete state reached by locking "r". -/
theorem C7_witness :
    dutexR1.unlock "r" 1 =
      (.ok, { dutexR1 with locked := fun r => if r = "r" then none else dutexR1.locked r }) ∧
    ({ dutexR1 with locked := fun r => if r = "r" then none else dutexR1.locked r }
        : Dutex).locked "r" = none ∧
    (({ dutexR1 with locked := fun r => if r = "r" then none else dutexR1.locked r }
        : Dutex).lock "r" 7 99).1
      = .ok ((dutexR1.version + 1) % uint64Size) :=
  C7_round_trip newDutex dutexR1 "r" 5 7 0 99 1 rfl

/-- C8: atomicity of `Lock` on failure — whenever the call fails, the whole
registry state (entries map and counter) is returned unchanged, and the
error is `AlreadyLocked` naming the contested resource. -/
theorem C8_lock_failure_frame (d : Dutex) (R : String) (L now : Int) (e : DutexError)
    (h : (d.lock R L now).1 = .err e) :
    (d.lock R L now).2 = d ∧ e = .alreadyLocked R := by
  cases hl : liveAt (d.locked R) now with
  | true => simp [Dutex.lock, hl] at h ⊢; exact h.symm
  | false => simp [Dutex.lock, hl, Dutex.lockStore] at h

/-- Witness for C8: a contested lock on the busy registry changes nothing. -/
theorem C8_witness :
    (dutexBusy.lock "r" 5 0).2 = dutexBusy ∧
    DutexError.alreadyLocked "r" = .alreadyLocked "r" :=
  C8_lock_failure_frame dutexBusy "r" 5 0 (.alreadyLocked "r") (by decide)

theorem uint64Size_pos : 0 < uint64Size := by norm_num [uint64Size]

/-- Unfolding of `Dutex.run` on a cons. -/
theorem run_cons (d : Dutex) (op : Op) (t : List Op) :
    d.run (op :: t) =
      (((d.step op).2.run t).1, (d.step op).1 :: ((d.step op).2.run t).2) := rfl

/-- Final state of a run, one step peeled. -/
theorem run_cons_fst (d : Dutex) (op : Op) (t : List Op) :
    (d.run (op :: t)).1 = ((d.step op).2.run t).1 := rfl

/-- Outcomes of a run, one step peeled. -/
theorem run_cons_snd (d : Dutex) (op : Op) (t : List Op) :
    (d.run (op :: t)).2 = (d.step op).1 :: ((d.step op).2.run t).2 := rfl

/-- The counter moves only on a successful lock: a step adds to it exactly
the step's own contribution to `succCount`, modulo `2 ^ 64`, and keeps it
below the modulus. -/
theorem step_version (d : Dutex) (op : Op) (hd : d.version < uint64Size) :
    (d.step op).2.version =
      (d.version + (if (d.step op).1.isLockOk then 1 else 0)) % uint64Size ∧
    (d.step op).2.version < uint64Size := by
  cases op with
  | lock r l n =>
    cases hl : liveAt (d.locked r) n with
    | true =>
      simp [Dutex.step, Dutex.lock, hl, Out.isLockOk]
      exact ⟨(Nat.mod_eq_of_lt hd).symm, hd⟩
    | false =>
      simp [Dutex.step, Dutex.lock, hl, Dutex.lockStore, Out.isLockOk]
      exact Nat.mod_lt _ uint64Size_pos
  | unlock r v =>
    cases heq : d.locked r with
    | none =>
      simp [Dutex.step, Dutex.unlock, heq, Out.isLockOk]
      exact ⟨(Nat.mod_eq_of_lt hd).symm, hd⟩
    | some p =>
      by_cases hv : v = p.version
      · simp [Dutex.step, Dutex.unlock, heq, hv, Out.isLockOk]
        exact ⟨(Nat.mod_eq_of_lt hd).symm, hd⟩
      · simp [Dutex.step, Dutex.unlock, heq, hv, Out.isLockOk]
        exact ⟨(Nat.mod_eq_of_lt hd).symm, hd⟩

/-- A step that reports `lockOk v` issued the incremented counter. -/
theorem step_out_version (d : Dutex) (op : Op) (v : Nat)
    (h : (d.step op).1 = .lockOk v) : v = (d.version + 1) % uint64Size := by
  cases op with
  | lock r l n =>
    cases hl : liveAt (d.locked r) n with
    | true => simp [Dutex.step, Dutex.lock, hl] at h
    | false =>
      simp [Dutex.step, Dutex.lock, hl, Dutex.lockStore] at h
      exact h.symm
  | unlock r v2 =>
    cases heq : d.locked r with
    | none => simp [Dutex.step, Dutex.unlock, heq] at h
    | some p =>
      by_cases hv : v2 = p.version
      · simp [Dutex.step, Dutex.unlock, heq, hv] at h
      · simp [Dutex.step, Dutex.unlock, heq, hv] at h

/-- Running a trace adds the number of successful locks to the counter,
modulo `2 ^ 64`, and keeps the counter below the modulus. -/
theorem run_version (t : List Op) : ∀ d : Dutex, d.version < uint64Size →
    (d.run t).1.version = (d.version + succCount (d.run t).2) % uint64Size ∧
    (d.run t).1.version < uint64Size := by
  induction t with
  | nil =>
    intro d hd
    exact ⟨(Nat.mod_eq_of_lt hd).symm, hd⟩
  | cons op rest ih =>
    intro d hd
    obtain ⟨hstep, hlt⟩ := step_version d op hd
    obtain ⟨hrun, hrunlt⟩ := ih (d.step op).2 hlt
    refine ⟨?_, ?_⟩
    · rw [run_cons_fst, run_cons_snd, hrun, hstep, Nat.mod_add_mod]
      simp only [succCount, List.countP_cons]
      congr 1
      omega
    · rw [run_cons_fst]
      exact hrunlt

/-- The version reported by the i-th successful lock of a trace is the
number of successful locks up to and including it (plus the starting
counter), modulo `2 ^ 64`. -/
theorem run_out_version (t : List Op) : ∀ (d : Dutex), d.version < uint64Size →
    ∀ i v, (d.run t).2.get? i = some (.lockOk v) →
    v = (d.version + succCount ((d.run t).2.take (i + 1))) % uint64Size := by
  induction t with
  | nil =>
    intro d hd i v h
    simp [Dutex.run] at h
  | cons op rest ih =>
    intro d hd i v h
    obtain ⟨hstep, hlt⟩ := step_version d op hd
    rw [run_cons_snd] at h ⊢
    cases i with
    | zero =>
      rw [List.get?_cons_zero] at h
      injection h with h
      have hv := step_out_version d op v h
      rw [List.take_succ_cons, List.take_zero]
      simp only [succCount, List.countP_cons, List.countP_nil, h]
      simp [Out.isLockOk]
      exact hv
    | succ i =>
      rw [List.get?_cons_succ] at h
      have hv := ih (d.step op).2 hlt i v h
      rw [List.take_succ_cons]
      simp only [succCount, List.countP_cons]
      rw [hv, hstep, Nat.mod_add_mod]
      simp only [succCount]
      congr 1
      omega

/-- `succCount` of a prefix is monotone in the prefix length. -/
theorem succCount_take_le (outs : List Out) (m n : Nat) (h : m ≤ n) :
    succCount (outs.take m) ≤ succCount (outs.take n) := by
  have heq : outs.take m = (outs.take n).take m := by
    rw [List.take_take]
    congr 1
    omega
  rw [heq]
  exact List.Sublist.countP_le _ (List.take_sublist _ _)

/-- A prefix never counts more successful locks than the full trace. -/
theorem succCount_take_le_total (outs : List Out) (m : Nat) :
    succCount (outs.take m) ≤ succCount outs :=
  List.Sublist.countP_le _ (List.take_sublist _ _)

/-- Cutting just after a successful lock counts one more success than
cutting just before it. -/
theorem succCount_take_succ_of_get (outs : List Out) (j v : Nat)
    (h : outs.get? j = some (.lockOk v)) :
    succCount (outs.take (j + 1)) = succCount (outs.take j) + 1 := by
  rw [List.get?_eq_getElem?] at h
  rw [succCount, succCount, List.take_succ, List.countP_append, h]
  simp [Out.isLockOk]

/-- C2 (amended): over any serialized sequence of registry calls from the
fresh registry, as long as the sequence contains fewer than `2 ^ 64`
successful locks, every successful lock returns a version strictly greater
than every version returned by an earlier successful lock, on any
resources. -/
theorem C2_amended (t : List Op) (i j vi vj : Nat)
    (htotal : succCount (newDutex.run t).2 < uint64Size)
    (hij : i < j)
    (hi : (newDutex.run t).2.get? i = some (.lockOk vi))
    (hj : (newDutex.run t).2.get? j = some (.lockOk vj)) :
    vi < vj := by
  have hd0 : newDutex.version < uint64Size := uint64Size_pos
  have hvi := run_out_version t newDutex hd0 i vi hi
  have hvj := run_out_version t newDutex hd0 j vj hj
  have hsi : succCount ((newDutex.run t).2.take (i + 1)) < uint64Size :=
    lt_of_le_of_lt (succCount_take_le_total _ _) htotal
  have hsj : succCount ((newDutex.run t).2.take (j + 1)) < uint64Size :=
    lt_of_le_of_lt (succCount_take_le_total _ _) htotal
  rw [show newDutex.version = 0 from rfl, Nat.zero_add, Nat.mod_eq_of_lt hsi] at hvi
  rw [show newDutex.version = 0 from rfl, Nat.zero_add, Nat.mod_eq_of_lt hsj] at hvj
  have hstep := succCount_take_succ_of_get (newDutex.run t).2 j vj hj
  have hmono : succCount ((newDutex.run t).2.take (i + 1))
      ≤ succCount ((newDutex.run t).2.take j) :=
    succCount_take_le _ _ _ (by omega)
  omega

/-- Witness for C2's amended theorem: two locks on distinct resources from
the fresh registry return 1 then 2. -/
theorem C2_witness :
    (newDutex.run [Op.lock "a" 5 0, Op.lock "b" 5 0]).2.get? 0 = some (.lockOk 1) ∧
    (newDutex.run [Op.lock "a" 5 0, Op.lock "b" 5 0]).2.get? 1 = some (.lockOk 2) ∧
    (1 : Nat) < 2 :=
  ⟨by decide, by decide,
   C2_amended [Op.lock "a" 5 0, Op.lock "b" 5 0] 0 1 1 2 (by decide) (by decide)
     (by decide) (by decide)⟩

/-- Locking the same resource with lifetime 0 at instant 0 always succeeds
(the freshly stored entry expires at once), so `n` such calls issue the
versions `1, 2, …` modulo `2 ^ 64`, touch no other resource, and leave the
counter at its starting value plus `n`, modulo `2 ^ 64`. -/
theorem runRelockAux (n : Nat) : ∀ d : Dutex, d.version < uint64Size →
    liveAt (d.locked "r") 0 = false →
    ((d.run (List.replicate n (Op.lock "r" 0 0))).1.version
        = (d.version + n) % uint64Size)
    ∧ (∀ s, s ≠ "r" →
        (d.run (List.replicate n (Op.lock "r" 0 0))).1.locked s = d.locked s)
    ∧ ((d.run (List.replicate n (Op.lock "r" 0 0))).2
        = (List.range n).map fun i => Out.lockOk ((d.version + (i + 1)) % uint64Size)) := by
  induction n with
  | zero =>
    intro d hd hlive
    refine ⟨(Nat.mod_eq_of_lt hd).symm, fun s _ => rfl, rfl⟩
  | succ n ih =>
    intro d hd hlive
    have hstep : d.step (Op.lock "r" 0 0) =
        (.lockOk ((d.version + 1) % uint64Size),
         { locked := fun r =>
             if r = "r" then
               some { version := (d.version + 1) % uint64Size, expiration := 0 + 0 }
             else d.locked r,
           version := (d.version + 1) % uint64Size }) := by
      simp [Dutex.step, Dutex.lock, hlive, Dutex.lockStore]
    have hd2 : (d.step (Op.lock "r" 0 0)).2.version < uint64Size := by
      rw [hstep]
      exact Nat.mod_lt _ uint64Size_pos
    have hlive2 : liveAt ((d.step (Op.lock "r" 0 0)).2.locked "r") 0 = false := by
      rw [hstep]
      simp [liveAt]
    obtain ⟨ihver, ihframe, ihouts⟩ := ih (d.step (Op.lock "r" 0 0)).2 hd2 hlive2
    rw [List.replicate_succ]
    refine ⟨?_, ?_, ?_⟩
    · rw [run_cons_fst, ihver]
      rw [show (d.step (Op.lock "r" 0 0)).2.version = (d.version + 1) % uint64Size by
        rw [hstep]]
      rw [Nat.mod_add_mod]
      congr 1
      omega
    · intro s hs
      rw [run_cons_fst, ihframe s hs, hstep]
      simp [hs]
    · rw [run_cons_snd, ihouts]
      rw [show (d.step (Op.lock "r" 0 0)).1 = .lockOk ((d.version + 1) % uint64Size) by
        rw [hstep]]
      rw [show (d.step (Op.lock "r" 0 0)).2.version = (d.version + 1) % uint64Size by
        rw [hstep]]
      rw [List.range_succ_eq_map, List.map_cons, List.map_map]
      congr 1
      apply List.map_congr_left
      intro i _
      simp only [Function.comp_apply, Nat.succ_eq_add_one, Nat.mod_add_mod]
      congr 2
      omega

/-- C2 (counterexample to the claim as stated): the fencing-token counter is
a 64-bit unsigned integer and wraps.  On the trace of `2 ^ 64` lock calls on
resource "r" with lifetime 0 (each finds the previous entry already expired
and succeeds), the first call returns version 1 while the last returns
version 0, so the version of a later successful lock is not strictly greater
than every earlier one. -/
theorem C2_counterexample :
    ¬ (∀ (t : List Op) (i j vi vj : Nat), i < j →
        (newDutex.run t).2.get? i = some (.lockOk vi) →
        (newDutex.run t).2.get? j = some (.lockOk vj) →
        vi < vj) := by
  intro hclaim
  obtain ⟨hver, hframe, houts⟩ :=
    runRelockAux uint64Size newDutex uint64Size_pos rfl
  have hM1 : 1 < uint64Size := by norm_num [uint64Size]
  have h1 : (newDutex.run (List.replicate uint64Size (Op.lock "r" 0 0))).2.get? 0
      = some (.lockOk 1) := by
    rw [houts, List.get?_map, List.get?_range uint64Size_pos, Option.map_some']
    rw [show newDutex.version = 0 from rfl]
    norm_num [Nat.mod_eq_of_lt hM1]
  have h2 : (newDutex.run (List.replicate uint64Size (Op.lock "r" 0 0))).2.get?
      (uint64Size - 1) = some (.lockOk 0) := by
    rw [houts, List.get?_map,
      List.get?_range (by have := uint64Size_pos; omega : uint64Size - 1 < uint64Size),
      Option.map_some']
    rw [show newDutex.version = 0 from rfl,
      show uint64Size - 1 + 1 = uint64Size by have := uint64Size_pos; omega]
    norm_num
  have := hclaim (List.replicate uint64Size (Op.lock "r" 0 0)) 0 (uint64Size - 1) 1 0
    (by have := hM1; omega) h1 h2
  omega

/-- A call whose step leaves the state unchanged can be repeated: the run
stays put and repeats the same outcome. -/
theorem runStuck (k : Nat) : ∀ (d : Dutex) (op : Op) (out : Out),
    d.step op = (out, d) →
    d.run (List.replicate k op) = (d, List.replicate k out) := by
  induction k with
  | zero => intro d op out _; rfl
  | succ k ih =>
    intro d op out h
    rw [List.replicate_succ, run_cons, h]
    rw [ih d op out h, List.replicate_succ]

/-- A version appears among the issued ones exactly when some call in the
trace reported it as a successful lock. -/
theorem issued_mem_iff (outs : List Out) (v : Nat) :
    v ∈ issued outs ↔ ∃ i, outs.get? i = some (.lockOk v) := by
  unfold issued
  rw [List.mem_filterMap]
  constructor
  · rintro ⟨o, ho, hgo⟩
    have ho2 : o = .lockOk v := by
      cases o <;> simp_all
    subst ho2
    exact List.mem_iff_get?.mp ho
  · rintro ⟨i, hi⟩
    exact ⟨.lockOk v, List.mem_iff_get?.mpr ⟨i, hi⟩, rfl⟩

/-- Failed lock calls issue no versions. -/
theorem issued_replicate_err (k : Nat) (e : DutexError) :
    issued (List.replicate k (Out.lockErr e)) = [] := by
  induction k with
  | zero => rfl
  | succ k ih =>
    rw [List.replicate_succ]
    rw [show issued (Out.lockErr e :: List.replicate k (Out.lockErr e))
          = issued (List.replicate k (Out.lockErr e)) from rfl]
    exact ih

/-- A lock call on a resource with no entry always succeeds: symbolic form
of the success branch of `Dutex.step`. -/
theorem step_lock_of_none (d : Dutex) (R : String) (L now : Int)
    (h : d.locked R = none) :
    d.step (Op.lock R L now) =
      (.lockOk ((d.version + 1) % uint64Size),
       { locked := fun r =>
           if r = R then
             some { version := (d.version + 1) % uint64Size, expiration := now + L }
           else d.locked r,
         version := (d.version + 1) % uint64Size }) := by
  have hlive : liveAt (d.locked R) now = false := by rw [h]; rfl
  simp [Dutex.step, Dutex.lock, hlive, Dutex.lockStore]

/-- Every version issued over a trace from the fresh registry is at most the
total number of successful locks, provided that total stays below `2 ^ 64`. -/
theorem issued_le_total (t : List Op) (v : Nat)
    (htotal : succCount (newDutex.run t).2 < uint64Size)
    (hv : v ∈ issued (newDutex.run t).2) :
    v ≤ succCount (newDutex.run t).2 := by
  obtain ⟨i, hi⟩ := (issued_mem_iff _ v).mp hv
  have hd0 : newDutex.version < uint64Size := uint64Size_pos
  have := run_out_version t newDutex hd0 i v hi
  have hle : succCount ((newDutex.run t).2.take (i + 1)) ≤ succCount (newDutex.run t).2 :=
    succCount_take_le_total _ _
  rw [show newDutex.version = 0 from rfl, Nat.zero_add,
    Nat.mod_eq_of_lt (lt_of_le_of_lt hle htotal)] at this
  omega

/-- C9 (amended): viewing N "concurrent" lock calls as the N serialized
executions the registry mutex imposes, all at one instant: from any state
reached from the fresh registry in which resource R has no entry, N ≥ 1 lock
calls on R with positive lifetime produce exactly one success followed by
N − 1 `AlreadyLocked` failures, and — provided fewer than `2 ^ 64` versions
have been issued over the registry's lifetime including this one — the
successful call's version differs from every previously issued version. -/
theorem C9_amended (t0 : List Op) (R : String) (L now : Int) (N : Nat)
    (hN : 1 ≤ N) (hL : 0 < L)
    (hR : (newDutex.run t0).1.locked R = none)
    (hwrap : succCount (newDutex.run t0).2 + 1 < uint64Size) :
    ((newDutex.run t0).1.run (List.replicate N (Op.lock R L now))).2 =
      Out.lockOk (((newDutex.run t0).1.version + 1) % uint64Size)
        :: List.replicate (N - 1) (Out.lockErr (.alreadyLocked R)) ∧
    ∀ v, v ∈ issued (((newDutex.run t0).1.run (List.replicate N (Op.lock R L now))).2) →
      v ∉ issued (newDutex.run t0).2 := by
  have hd0 : newDutex.version < uint64Size := uint64Size_pos
  obtain ⟨hverEq, hverLt⟩ := run_version t0 newDutex hd0
  obtain ⟨k, rfl⟩ : ∃ k, N = k + 1 := ⟨N - 1, by omega⟩
  have hstep1 : (newDutex.run t0).1.step (Op.lock R L now) =
      (.lockOk (((newDutex.run t0).1.version + 1) % uint64Size),
       { locked := fun r =>
           if r = R then
             some { version := ((newDutex.run t0).1.version + 1) % uint64Size,
                    expiration := now + L }
           else (newDutex.run t0).1.locked r,
         version := ((newDutex.run t0).1.version + 1) % uint64Size }) := by
    have hlive : liveAt ((newDutex.run t0).1.locked R) now = false := by
      rw [hR]; rfl
    simp [Dutex.step, Dutex.lock, hlive, Dutex.lockStore]
  have hstuck : ((newDutex.run t0).1.step (Op.lock R L now)).2.step (Op.lock R L now) =
      (.lockErr (.alreadyLocked R), ((newDutex.run t0).1.step (Op.lock R L now)).2) := by
    rw [hstep1]
    have hlive2 : liveAt
        (some { version := ((newDutex.run t0).1.version + 1) % uint64Size,
                expiration := now + L } : Option Resource) now = true := by
      simp [liveAt]
      omega
    simp [Dutex.step, Dutex.lock, hlive2]
  have houts : ((newDutex.run t0).1.run (List.replicate (k + 1) (Op.lock R L now))).2 =
      Out.lockOk (((newDutex.run t0).1.version + 1) % uint64Size)
        :: List.replicate k (Out.lockErr (.alreadyLocked R)) := by
    rw [List.replicate_succ, run_cons_snd, hstep1]
    rw [show (Out.lockOk (((newDutex.run t0).1.version + 1) % uint64Size),
          ({ locked := fun r =>
               if r = R then
                 some { version := ((newDutex.run t0).1.version + 1) % uint64Size,
                        expiration := now + L }
               else (newDutex.run t0).1.locked r,
             version := ((newDutex.run t0).1.version + 1) % uint64Size } : Dutex)).2
        = ((newDutex.run t0).1.step (Op.lock R L now)).2 by rw [hstep1]]
    rw [runStuck k _ _ _ hstuck]
  refine ⟨by rw [houts, Nat.add_sub_cancel], ?_⟩
  intro v hv hv0
  rw [houts] at hv
  have hv1 : v = ((newDutex.run t0).1.version + 1) % uint64Size := by
    rw [show issued (Out.lockOk (((newDutex.run t0).1.version + 1) % uint64Size)
            :: List.replicate k (Out.lockErr (.alreadyLocked R)))
        = ((newDutex.run t0).1.version + 1) % uint64Size
            :: issued (List.replicate k (Out.lockErr (.alreadyLocked R))) from rfl,
      issued_replicate_err] at hv
    simpa using hv
  have hs0 : succCount (newDutex.run t0).2 < uint64Size := by omega
  rw [hverEq, show newDutex.version = 0 from rfl, Nat.zero_add,
    Nat.mod_eq_of_lt hs0, Nat.mod_eq_of_lt hwrap] at hv1
  have := issued_le_total t0 v hs0 hv0
  omega

/-- Witness for C9's amended theorem: two locks on "r" from the fresh
registry, one success (version 1) and one `AlreadyLocked` failure. -/
theorem C9_witness :
    ((newDutex.run []).1.run (List.replicate 2 (Op.lock "r" 1 0))).2 =
      Out.lockOk (((newDutex.run []).1.version + 1) % uint64Size)
        :: List.replicate 1 (Out.lockErr (.alreadyLocked "r")) :=
  (C9_amended [] "r" 1 0 2 (by decide) (by decide) rfl (by decide)).1

/-- C9 (counterexample to the claim as stated): after `2 ^ 64` successful
locks the counter has wrapped back to 0, so the next successful lock — here
a batch of N = 1 calls on the never-before-locked resource "s" — is issued
version 1 again, which is not unique among the versions ever issued. -/
theorem C9_counterexample :
    ¬ (∀ (t0 : List Op) (R : String) (L now : Int) (N : Nat),
        1 ≤ N → 0 < L →
        (newDutex.run t0).1.locked R = none →
        (succCount (((newDutex.run t0).1.run (List.replicate N (Op.lock R L now))).2) = 1 ∧
         ((((newDutex.run t0).1.run (List.replicate N (Op.lock R L now))).2.countP
             fun o => decide (o = Out.lockErr (.alreadyLocked R))) = N - 1 ∧
         ∀ v, v ∈ issued (((newDutex.run t0).1.run (List.replicate N (Op.lock R L now))).2) →
           v ∉ issued (newDutex.run t0).2))) := by
  intro hclaim
  obtain ⟨hver, hframe, houts⟩ :=
    runRelockAux uint64Size newDutex uint64Size_pos rfl
  have hM1 : 1 < uint64Size := by norm_num [uint64Size]
  have hvz : (newDutex.run (List.replicate uint64Size (Op.lock "r" 0 0))).1.version = 0 := by
    rw [hver, show newDutex.version = 0 from rfl, Nat.zero_add, Nat.mod_self]
  have hs : (newDutex.run (List.replicate uint64Size (Op.lock "r" 0 0))).1.locked "s"
      = none := by
    rw [hframe "s" (by decide)]
    rfl
  obtain ⟨hone, hcount, huniq⟩ := hclaim (List.replicate uint64Size (Op.lock "r" 0 0))
    "s" 1 0 1 (by omega) (by omega) hs
  have hbatch : ((newDutex.run (List.replicate uint64Size (Op.lock "r" 0 0))).1.run
      (List.replicate 1 (Op.lock "s" 1 0))).2 = [Out.lockOk 1] := by
    rw [show (List.replicate 1 (Op.lock "s" 1 0)) = [Op.lock "s" 1 0] from rfl]
    rw [run_cons_snd,
      step_lock_of_none (newDutex.run (List.replicate uint64Size (Op.lock "r" 0 0))).1
        "s" 1 0 hs,
      hvz]
    rw [show ((0 : Nat) + 1) % uint64Size = 1 by rw [Nat.zero_add, Nat.mod_eq_of_lt hM1]]
    rfl
  have hmem1 : (1 : Nat) ∈ issued (((newDutex.run (List.replicate uint64Size
      (Op.lock "r" 0 0))).1.run (List.replicate 1 (Op.lock "s" 1 0))).2) := by
    rw [hbatch]
    exact List.mem_singleton.mpr rfl
  have hmem0 : (1 : Nat) ∈ issued (newDutex.run
      (List.replicate uint64Size (Op.lock "r" 0 0))).2 := by
    rw [houts]
    apply (issued_mem_iff _ 1).mpr
    refine ⟨0, ?_⟩
    rw [List.get?_map, List.get?_range uint64Size_pos, Option.map_some']
    rw [show newDutex.version = 0 from rfl]
    norm_num [Nat.mod_eq_of_lt hM1]
  exact huniq 1 hmem1 hmem0

/-- C10 (frame): any `Lock(R, L)` or `Unlock(R, V)` call, successful or not,
leaves the entry of every other resource unchanged; `Unlock` never changes
the counter, and a failing `Lock` does not either. -/
theorem C10_frame (d : Dutex) (R r2 : String) (L now : Int) (V : Nat) (hr : r2 ≠ R) :
    (d.lock R L now).2.locked r2 = d.locked r2 ∧
    (d.unlock R V).2.locked r2 = d.locked r2 ∧
    (d.unlock R V).2.version = d.version ∧
    (∀ e, (d.lock R L now).1 = .err e → (d.lock R L now).2.version = d.version) := by
  refine ⟨?_, ?_, ?_, ?_⟩
  · cases hl : liveAt (d.locked R) now with
    | true => simp [Dutex.lock, hl]
    | false => simp [Dutex.lock, hl, Dutex.lockStore, hr]
  · cases heq : d.locked R with
    | none => simp [Dutex.unlock, heq]
    | some p =>
      by_cases hv : V = p.version
      · simp [Dutex.unlock, heq, hv, hr]
      · simp [Dutex.unlock, heq, hv]
  · cases heq : d.locked R with
    | none => simp [Dutex.unlock, heq]
    | some p =>
      by_cases hv : V = p.version
      · simp [Dutex.unlock, heq, hv]
      · simp [Dutex.unlock, heq, hv]
  · intro e he
    cases hl : liveAt (d.locked R) now with
    | true => simp [Dutex.lock, hl]
    | false => simp [Dutex.lock, hl, Dutex.lockStore] at he

/-- Witness for C10: the busy registry, a lock and an unlock on "r", the
entry of "a" and the counter untouched. -/
theorem C10_witness :
    (dutexBusy.lock "r" 5 0).2.locked "a" = dutexBusy.locked "a" ∧
    (dutexBusy.unlock "r" 7).2.locked "a" = dutexBusy.locked "a" ∧
    (dutexBusy.unlock "r" 7).2.version = dutexBusy.version :=
  ⟨(C10_frame dutexBusy "r" "a" 5 0 7 (by decide)).1,
   (C10_frame dutexBusy "r" "a" 5 0 7 (by decide)).2.1,
   (C10_frame dutexBusy "r" "a" 5 0 7 (by decide)).2.2.1⟩
